import Mathlib

/-!
Verification of the NRBF (".NET Remoting Binary Format") reader library
`nrbf.py` against its natural-language specification.

The Python source is shallowly embedded: the byte stream is a `List Nat`
consumed from the front, stateful readers become explicit state passing in
an `Except` monad, and Python exceptions become `Err` values.  Readers keep
the source's names (with the leading underscore dropped).

Modelling notes, applied uniformly:
* Python's `file.read(n)` returns up to `n` bytes (short at end of stream);
  `struct.unpack` raises `struct.error` on a short buffer (`Err.structError`).
* Python `dict` is an insertion-ordered association list (`dictInsert`,
  `lookupObj`); assignment to an existing key replaces the value in place.
* The in-place mutation of `_MemberReference.parent[index_in_parent]` cannot
  be expressed on pure trees; a `MemberRef` keeps the fields that the
  resolution passes in `read_stream` inspect (`id`, `resolved`), and
  `Val.memberRef` marks the slot in the decoded graph.
* Recursion through the record dispatcher is made structural with an explicit
  fuel argument; `read_stream` instantiates it with more fuel than one unit
  per consumed byte, so `Err.fuelExhausted` never occurs on the inputs used.
* Record readers for class records and primitive arrays (tags 1-5, 7, 15) and
  most primitive types exist in the source but are outside the modelled
  subset; they are mapped to `Err.unmodeled` and never used by any theorem.
-/

/-- Python exceptions raised by `nrbf.py`, as a closed error type.
`structError` is `struct.error` (short read), `keyError` an unknown
dispatch key, `unresolvableRef` the `RuntimeError` raised by
`_resolve_reference` (the spec's `DanglingRef`). -/
inductive Err where
  | structError
  | keyError
  | indexError
  | attributeError
  | typeError
  | notImplementedError
  | overflowError
  | unicodeError
  | runtimeError
  | unresolvableRef
  | ioError
  | fuelExhausted
  | unmodeled
deriving DecidableEq, Repr

/-- The byte stream: each entry is one byte (0-255). -/
abbrev Bytes := List Nat

/-- Decoded values.  `str` carries Unicode code points; `library`,
`messageEnd`, `nullMultiple` and `memberRef` are the structural marker
objects (`_BinaryLibrary`, `_MessageEnd`, `_ObjectNullMultiple`,
`_MemberReference`) that the source returns from record readers;
`classInst` is a `namedlist` instance; `dictV` / `setV` are the native
containers produced by collection conversion. -/
inductive Val where
  | null
  | boolV (b : Bool)
  | intV (n : Int)
  | str (cps : List Nat)
  | library
  | messageEnd
  | nullMultiple (count : Int)
  | memberRef (id : Int)
  | list (xs : List Val)
  | dictV (entries : List (Val × Val))
  | setV (xs : List Val)
  | classInst (name : String) (members : List (String × Val))
deriving Repr

/-! Equality on `Val` (the model of Python `==` used by collection
conversion).  `DecidableEq` cannot be derived for this nested inductive, so
the boolean test and its lawfulness are written out. -/

mutual

/-- Structural equality of two values. -/
def valBeq : Val → Val → Bool
  | .null, .null => true
  | .boolV a, .boolV b => a == b
  | .intV a, .intV b => a == b
  | .str a, .str b => a == b
  | .library, .library => true
  | .messageEnd, .messageEnd => true
  | .nullMultiple a, .nullMultiple b => a == b
  | .memberRef a, .memberRef b => a == b
  | .list xs, .list ys => valListBeq xs ys
  | .dictV xs, .dictV ys => valPairListBeq xs ys
  | .setV xs, .setV ys => valListBeq xs ys
  | .classInst n xs, .classInst m ys => n == m && valMemberListBeq xs ys
  | _, _ => false

/-- Equality of value lists. -/
def valListBeq : List Val → List Val → Bool
  | [], [] => true
  | x :: xs, y :: ys => valBeq x y && valListBeq xs ys
  | _, _ => false

/-- Equality of key-value pair lists. -/
def valPairListBeq : List (Val × Val) → List (Val × Val) → Bool
  | [], [] => true
  | (k, v) :: xs, (l, w) :: ys => valBeq k l && valBeq v w && valPairListBeq xs ys
  | _, _ => false

/-- Equality of member lists. -/
def valMemberListBeq : List (String × Val) → List (String × Val) → Bool
  | [], [] => true
  | (k, v) :: xs, (l, w) :: ys => k == l && valBeq v w && valMemberListBeq xs ys
  | _, _ => false

end

instance : BEq Val := ⟨valBeq⟩

theorem valBeq_def (a b : Val) : (a == b) = valBeq a b := rfl

mutual

theorem valBeq_iff : (a b : Val) → (valBeq a b = true ↔ a = b)
  | .null, b => by cases b <;> simp [valBeq]
  | .boolV a, b => by cases b <;> simp [valBeq]
  | .intV a, b => by cases b <;> simp [valBeq]
  | .str a, b => by cases b <;> simp [valBeq]
  | .library, b => by cases b <;> simp [valBeq]
  | .messageEnd, b => by cases b <;> simp [valBeq]
  | .nullMultiple a, b => by cases b <;> simp [valBeq]
  | .memberRef a, b => by cases b <;> simp [valBeq]
  | .list xs, b => by cases b <;> simp [valBeq, valListBeq_iff xs]
  | .dictV xs, b => by cases b <;> simp [valBeq, valPairListBeq_iff xs]
  | .setV xs, b => by cases b <;> simp [valBeq, valListBeq_iff xs]
  | .classInst n xs, b => by
      cases b <;> simp [valBeq, valMemberListBeq_iff xs, and_comm]

theorem valListBeq_iff : (xs ys : List Val) → (valListBeq xs ys = true ↔ xs = ys)
  | [], ys => by cases ys <;> simp [valListBeq]
  | x :: xs, [] => by simp [valListBeq]
  | x :: xs, y :: ys => by
      simp [valListBeq, valBeq_iff x y, valListBeq_iff xs ys]

theorem valPairListBeq_iff :
    (xs ys : List (Val × Val)) → (valPairListBeq xs ys = true ↔ xs = ys)
  | [], ys => by cases ys <;> simp [valPairListBeq]
  | x :: xs, [] => by simp [valPairListBeq]
  | (k, v) :: xs, (l, w) :: ys => by
      simp [valPairListBeq, valBeq_iff k l, valBeq_iff v w, valPairListBeq_iff xs ys,
        Prod.ext_iff, and_assoc]

theorem valMemberListBeq_iff :
    (xs ys : List (String × Val)) → (valMemberListBeq xs ys = true ↔ xs = ys)
  | [], ys => by cases ys <;> simp [valMemberListBeq]
  | x :: xs, [] => by simp [valMemberListBeq]
  | (k, v) :: xs, (l, w) :: ys => by
      simp [valMemberListBeq, valBeq_iff v w, valMemberListBeq_iff xs ys,
        Prod.ext_iff, and_assoc]

end

instance : LawfulBEq Val where
  eq_of_beq h := (valBeq_iff _ _).mp h
  rfl := (valBeq_iff _ _).mpr rfl

instance : DecidableEq Val :=
  fun a b => decidable_of_iff (valBeq a b = true) (valBeq_iff a b)

/-! ## Byte-level primitive readers (`struct.unpack` based) -/

/-- `_read_Byte`: `Struct('B')` on one byte; `struct.error` on a short read. -/
def read_Byte : Bytes → Except Err (Nat × Bytes)
  | b :: r => .ok (b, r)
  | [] => .error .structError

/-- Little-endian signed 32-bit value of four bytes. -/
def int32OfLEBytes (b0 b1 b2 b3 : Nat) : Int :=
  let n := b0 + 256 * b1 + 65536 * b2 + 16777216 * b3
  if n < 2147483648 then (n : Int) else (n : Int) - 4294967296

/-- `_read_Int32`: `Struct('<l')` on four bytes. -/
def read_Int32 : Bytes → Except Err (Int × Bytes)
  | b0 :: b1 :: b2 :: b3 :: r => .ok (int32OfLEBytes b0 b1 b2 b3, r)
  | _ => .error .structError

/-! ## UTF-8 (model of Python's `bytes.decode('utf-8')`) -/

/-- Is `c` a UTF-8 continuation byte (`0x80-0xBF`)? -/
def utf8ContOk (c : Nat) : Bool := 0x80 ≤ c && c ≤ 0xBF

/-- Decode one UTF-8 scalar from the front of the byte list.  Rejects
overlong forms, surrogates and values above `0x10FFFF`, as Python's strict
UTF-8 codec does. -/
def utf8DecodeOne : Bytes → Option (Nat × Bytes)
  | [] => none
  | b :: r =>
    if b ≤ 0x7F then some (b, r)
    else if 0xC2 ≤ b && b ≤ 0xDF then
      match r with
      | c :: r2 =>
        if utf8ContOk c then some ((b - 0xC0) * 64 + (c - 0x80), r2) else none
      | [] => none
    else if 0xE0 ≤ b && b ≤ 0xEF then
      match r with
      | c :: d :: r2 =>
        let lo := if b = 0xE0 then 0xA0 else 0x80
        let hi := if b = 0xED then 0x9F else 0xBF
        if lo ≤ c && c ≤ hi && utf8ContOk d then
          some ((b - 0xE0) * 4096 + (c - 0x80) * 64 + (d - 0x80), r2)
        else none
      | _ => none
    else if 0xF0 ≤ b && b ≤ 0xF4 then
      match r with
      | c :: d :: e :: r2 =>
        let lo := if b = 0xF0 then 0x90 else 0x80
        let hi := if b = 0xF4 then 0x8F else 0xBF
        if lo ≤ c && c ≤ hi && utf8ContOk d && utf8ContOk e then
          some ((b - 0xF0) * 262144 + (c - 0x80) * 4096 + (d - 0x80) * 64 + (e - 0x80), r2)
        else none
      | _ => none
    else none

/-- Fuelled UTF-8 decoding loop; the fuel is at least the list length at
every call site, so exhaustion is unreachable. -/
def utf8DecodeAux : Nat → Bytes → Option (List Nat)
  | _, [] => some []
  | 0, _ :: _ => none
  | fuel + 1, bs =>
    match utf8DecodeOne bs with
    | some (cp, r) => (utf8DecodeAux fuel r).map (cp :: ·)
    | none => none

/-- Model of `bytes.decode('utf-8')`: the code points, or `none` on a
`UnicodeDecodeError` (invalid or incomplete input). -/
def utf8Decode (bs : Bytes) : Option (List Nat) := utf8DecodeAux bs.length bs

/-! ## `_read_LengthPrefixedString` (source translation) -/

/-- The `for bit_range in range(0, 5*7, 7)` loop of
`_read_LengthPrefixedString`: each iteration reads one byte, adds its low
seven bits shifted by the current bit range, and stops when the high bit is
clear; the `for`-`else` raises `OverflowError` when all five iterations
continue. -/
def lpPrefixLoop : List Nat → Nat → Bytes → Except Err (Nat × Bytes)
  | [], _, _ => .error .overflowError
  | bitRange :: rest, acc, bs =>
    match bs with
    | [] => .error .structError
    | b :: bs2 =>
      let acc2 := acc + b % 128 * 2 ^ bitRange
      if b.testBit 7 then lpPrefixLoop rest acc2 bs2 else .ok (acc2, bs2)

/-- `_read_LengthPrefixedString`: base-128 length prefix, then
`file.read(length)` (which may return fewer bytes at end of stream) decoded
as UTF-8. -/
def read_LengthPrefixedString (bs : Bytes) : Except Err (List Nat × Bytes) :=
  match lpPrefixLoop [0, 7, 14, 21, 28] 0 bs with
  | .error e => .error e
  | .ok (len, bs2) =>
    match utf8Decode (bs2.take len) with
    | some cps => .ok (cps, bs2.drop len)
    | none => .error .unicodeError

/-! ## `_read_LengthPrefixedString` (specification wording)

The spec sentence: a little-endian base-128 length prefix of at most five
bytes, high bit continues, decoded length is the sum of each byte's low
seven bits shifted left by seven per byte position, `Overflow` exactly when
all five prefix bytes have their high bit set; then the body of that many
bytes is decoded as UTF-8. -/

/-- Modelled from the spec: the length prefix as a closed form.  `k` is the
first of the (at most five) prefix bytes whose high bit is clear; the
length is the positional sum of the low seven bits of bytes `0..k`. -/
def lpLengthSpec (bs : Bytes) : Except Err (Nat × Bytes) :=
  match (List.range 5).find? (fun j => decide (j < bs.length) && !(bs.getD j 0).testBit 7) with
  | some k =>
    .ok ((((List.range (k + 1)).map (fun i => (bs.getD i 0) % 128 * 2 ^ (7 * i))).sum), bs.drop (k + 1))
  | none => if 5 ≤ bs.length then .error .overflowError else .error .structError

/-- Modelled from the spec: length prefix per `lpLengthSpec`, then a body of
that many bytes decoded as UTF-8. -/
def lpStringSpec (bs : Bytes) : Except Err (List Nat × Bytes) :=
  match lpLengthSpec bs with
  | .error e => .error e
  | .ok (len, bs2) =>
    match utf8Decode (bs2.take len) with
    | some cps => .ok (cps, bs2.drop len)
    | none => .error .unicodeError

/-! ## `_read_Char` -/

/-- The `while True` loop of `_read_Char`, with the loop-iteration count
made explicit as fuel: each iteration appends `file.read(1)` (which is empty
at end of stream) to the accumulator, returns the decoded string on success,
and re-raises the `UnicodeDecodeError` once four bytes have accumulated.
`none` means the loop has not produced a result within `fuel` iterations. -/
def read_CharLoop : Nat → Bytes → List Nat → Option (Except Err (List Nat × Bytes))
  | 0, _, _ => none
  | fuel + 1, bs, acc =>
    let acc2 := acc ++ bs.take 1
    let bs2 := bs.drop 1
    match utf8Decode acc2 with
    | some cps => some (.ok (cps, bs2))
    | none =>
      if 4 ≤ acc2.length then some (.error .unicodeError)
      else read_CharLoop fuel bs2 acc2

/-- `_read_Char` entry point: the loop started on an empty accumulator. -/
def read_Char (fuel : Nat) (bs : Bytes) : Option (Except Err (List Nat × Bytes)) :=
  read_CharLoop fuel bs []

/-! ## `_read_DateTime` -/

/-- The tzinfo attached by `_read_DateTime`: `None`, `timezone.utc`, or the
local time zone from `astimezone()`. -/
inductive DateTimeKind where
  | unspecified
  | utc
  | localTime
deriving DecidableEq, Repr

/-- A decoded `datetime`: microseconds since 0001-01-01T00:00:00 in the
proleptic Gregorian calendar, plus the kind tag. -/
structure PyDateTime where
  kind : DateTimeKind
  microseconds : Int
deriving DecidableEq, Repr

/-- `datetime.max` (9999-12-31T23:59:59.999999) in microseconds since
0001-01-01T00:00:00: `3652059 * 86400 * 10 ^ 6 - 1`. -/
def maxDateTimeMicroseconds : Int := 315537897599999999

/-- Division of ticks by ten rounded half to even: the composition of
Python's `ticks / 10` with `timedelta`'s rounding of fractional
microseconds.  (The source computes `ticks / 10` in floating point; the
float is exact below 2^53 and the claim does not depend on the
approximation, so the division is modelled exactly.) -/
def roundHalfEvenDiv10 (t : Int) : Int :=
  let q := t.fdiv 10
  let r := t - 10 * q
  if r < 5 then q else if 5 < r then q + 1 else if q % 2 = 0 then q else q + 1

/-- `_read_DateTime` on the `UInt64` already read: the two most significant
bits are the kind, the rest is reinterpreted as 62-bit two's complement
ticks of 100 ns; `datetime(1, 1, 1) + timedelta(microseconds=ticks / 10)`
with `OverflowError` suppressed leaves the epoch value when the result is
out of range. -/
def read_DateTime (u : Nat) : PyDateTime :=
  let kind := u / 2 ^ 62
  let masked : Nat := u % 2 ^ 62
  let ticks : Int := if (masked : Int) ≥ 2 ^ 61 then (masked : Int) - 2 ^ 62 else (masked : Int)
  let micro := roundHalfEvenDiv10 ticks
  let instant := if 0 ≤ micro ∧ micro ≤ maxDateTimeMicroseconds then micro else 0
  { kind := if kind = 1 then .utc else if kind = 2 then .localTime else .unspecified
    microseconds := instant }

/-- The low 62 bits reinterpreted as two's complement (spec wording for the
ticks field). -/
def signed62 (t : Nat) : Int := if t < 2 ^ 61 then (t : Int) else (t : Int) - 2 ^ 62

/-! ## Decoder state (the mutable fields of a `serialization` instance)

The byte-level model covers the default construction
`serialization(streamfile)` (so `can_overwrite_member` is `False` and the
overwrite bookkeeping in `_read_Record_or_Primitive` is inactive); the
overwrite facility itself is modelled separately for `overwrite_member`. -/

/-- An NRBF `MemberReference` as kept in `self._member_references`.  The
`parent` / `index_in_parent` back-pointers, used only to write the referent
back into the containing object, have no pure-tree counterpart and are
dropped; `id` and `resolved` are what the two resolution passes in
`read_stream` inspect. -/
structure MemberRef where
  id : Int
  resolved : Bool
deriving DecidableEq, Repr

/-- Python `dict` lookup on an insertion-ordered association list. -/
def lookupObj (l : List (Int × Val)) (k : Int) : Option Val :=
  (l.find? (fun p => p.1 == k)).map (·.2)

/-- Python `dict` assignment: replace in place when the key is present,
otherwise append. -/
def dictInsert (l : List (Int × Val)) (k : Int) (v : Val) : List (Int × Val) :=
  if l.any (fun p => p.1 == k) then
    l.map (fun p => if p.1 == k then (k, v) else p)
  else l ++ [(k, v)]

/-- The mutable decoder state: `_objects_by_id`, `_member_references`,
`_collection_infos` (pairs of collection object and `ObjectId`), and
`_root_id`. -/
structure DState where
  objects : List (Int × Val)
  refs : List MemberRef
  collInfos : List (Val × Int)
  rootId : Option Int
deriving DecidableEq, Repr

/-- The state of a freshly constructed `serialization` instance. -/
def initState : DState :=
  { objects := [], refs := [], collInfos := [], rootId := none }

/-- Python list assignment `obj[i] = v` with an `Int` index: negative
indices count from the end, out-of-range raises `IndexError`. -/
def pyListSet (l : List Val) (i : Int) (v : Val) : Except Err (List Val) :=
  let j : Int := if i < 0 then i + l.length else i
  if 0 ≤ j ∧ j < (l.length : Int) then .ok (l.set j.toNat v) else .error .indexError

/-- The primitive types exercised by the modelled record subset.  The
remaining `_PrimitiveType_readers` entries exist in the source but are not
modelled. -/
inductive PrimType where
  | byteP
  | int32P
  | lpstringP
deriving DecidableEq, Repr

/-- Dispatch on a `PrimitiveTypeEnumeration` byte, for
`_read_MemberPrimitiveTyped`.  Value 4 has no reader in the source
(`KeyError`); other defined readers are outside the modelled subset. -/
def primTypeOfByte (b : Nat) : Except Err PrimType :=
  match b with
  | 2 => .ok .byteP
  | 8 => .ok .int32P
  | 18 => .ok .lpstringP
  | _ => if 1 ≤ b ∧ b ≤ 18 ∧ b ≠ 4 then .error .unmodeled else .error .keyError

/-- Run one of the modelled `_PrimitiveType_readers`. -/
def readPrimitive : PrimType → Bytes → Except Err (Val × Bytes)
  | .byteP, bs => (read_Byte bs).map (fun p => (.intV p.1, p.2))
  | .int32P, bs => (read_Int32 bs).map (fun p => (.intV p.1, p.2))
  | .lpstringP, bs => (read_LengthPrefixedString bs).map (fun p => (.str p.1, p.2))

/-- `_read_BinaryObjectString` (record tag 6): `ObjectId`, then a
length-prefixed string, entered into `_objects_by_id`. -/
def read_BinaryObjectString (st : DState) (bs : Bytes) : Except Err (Val × DState × Bytes) :=
  match read_Int32 bs with
  | .error e => .error e
  | .ok (objectId, bs1) =>
    match read_LengthPrefixedString bs1 with
    | .error e => .error e
    | .ok (cps, bs2) =>
      .ok (.str cps, { st with objects := dictInsert st.objects objectId (.str cps) }, bs2)

/-- `_read_SerializationHeaderRecord` (record tag 0): `RootId`, `HeaderId`
(ignored), then the version checks; returns `None`. -/
def read_SerializationHeaderRecord (st : DState) (bs : Bytes) : Except Err (Val × DState × Bytes) :=
  match read_Int32 bs with
  | .error e => .error e
  | .ok (rootId, bs1) =>
    match read_Int32 bs1 with
    | .error e => .error e
    | .ok (_, bs2) =>
      match read_Int32 bs2 with
      | .error e => .error e
      | .ok (major, bs3) =>
        match read_Int32 bs3 with
        | .error e => .error e
        | .ok (minor, bs4) =>
          if major ≠ 1 then .error .notImplementedError
          else if minor ≠ 0 then .error .notImplementedError
          else if rootId = 0 then .error .notImplementedError
          else .ok (.null, { st with rootId := some rootId }, bs4)

/-- `_read_BinaryLibrary` (record tag 12): `LibraryId` and `LibraryName`
are read and ignored; the `_BinaryLibrary` marker is returned.  The decoder
state is untouched. -/
def read_BinaryLibrary (st : DState) (bs : Bytes) : Except Err (Val × DState × Bytes) :=
  match read_Int32 bs with
  | .error e => .error e
  | .ok (_, bs1) =>
    match read_LengthPrefixedString bs1 with
    | .error e => .error e
    | .ok (_, bs2) => .ok (.library, st, bs2)

/-- `_read_MemberReference` (record tag 9): the `IdRef`, appended to
`_member_references`; the placeholder is returned as the slot value. -/
def read_MemberReference (st : DState) (bs : Bytes) : Except Err (Val × DState × Bytes) :=
  match read_Int32 bs with
  | .error e => .error e
  | .ok (idRef, bs1) =>
    .ok (.memberRef idRef, { st with refs := st.refs ++ [⟨idRef, false⟩] }, bs1)

/-! ## The record dispatcher and member-slot loops

All five functions below are one `while` loop or dispatch in the source;
the fuel argument decreases on every call, making the mutual recursion
structural.  Entry points hand in more fuel than the loops can consume. -/

mutual

/-- The record dispatch of `_read_Record_or_Primitive`: `file.read(1)` and
a lookup in `_RecordType_readers`.  At end of stream the read returns `b''`
and the dictionary lookup raises `KeyError`, as it does for the
unregistered tags 18-20 and 23-255.  Tags 21 and 22 raise
`NotImplementedError`; the class-record and primitive-array readers
(tags 1-5, 7, 15) exist in the source but are outside the modelled subset. -/
def readRecord : Nat → DState → Bytes → Except Err (Val × DState × Bytes)
  | 0, _, _ => .error .fuelExhausted
  | fuel + 1, st, bs =>
    match bs with
    | [] => .error .keyError
    | t :: r =>
      if t = 0 then read_SerializationHeaderRecord st r
      else if t = 6 then read_BinaryObjectString st r
      else if t = 8 then
        match r with
        | [] => .error .keyError
        | p :: r1 =>
          match primTypeOfByte p with
          | .error e => .error e
          | .ok pt => (readPrimitive pt r1).map (fun q => (q.1, st, q.2))
      else if t = 9 then read_MemberReference st r
      else if t = 10 then .ok (.null, st, r)
      else if t = 11 then .ok (.messageEnd, st, r)
      else if t = 12 then read_BinaryLibrary st r
      else if t = 13 then
        match read_Byte r with
        | .error e => .error e
        | .ok (c, r1) => .ok (.nullMultiple (c : Int), st, r1)
      else if t = 14 then
        match read_Int32 r with
        | .error e => .error e
        | .ok (c, r1) => .ok (.nullMultiple c, st, r1)
      else if t = 16 ∨ t = 17 then
        match read_Int32 r with
        | .error e => .error e
        | .ok (objectId, r1) =>
          match read_Int32 r1 with
          | .error e => .error e
          | .ok (length, r2) =>
            let slots := List.replicate (if length < 0 then 0 else length.toNat) Val.null
            read_members_into fuel st r2 slots 0 objectId (fun _ => none)
      else if t = 1 ∨ t = 2 ∨ t = 3 ∨ t = 4 ∨ t = 5 ∨ t = 7 ∨ t = 15 then .error .unmodeled
      else if t = 21 ∨ t = 22 then .error .notImplementedError
      else .error .keyError

/-- `_read_Record_or_Primitive` with `overwrite_infos = None` (the default
`can_overwrite_member = False` construction): read the given primitive
type, or dispatch on the next record tag. -/
def read_Record_or_Primitive : Nat → Option PrimType → DState → Bytes → Except Err (Val × DState × Bytes)
  | 0, _, _, _ => .error .fuelExhausted
  | _ + 1, some p, st, bs => (readPrimitive p bs).map (fun q => (q.1, st, q.2))
  | fuel + 1, none, st, bs => readRecord fuel st bs

/-- Lines 329-331 of `_read_members_into`: read a slot value, and when it
is a `_BinaryLibrary` marker discard it and read once more. -/
def read_member_slot : Nat → Option PrimType → DState → Bytes → Except Err (Val × DState × Bytes)
  | 0, _, _, _ => .error .fuelExhausted
  | fuel + 1, pt, st, bs =>
    match read_Record_or_Primitive fuel pt st bs with
    | .error e => .error e
    | .ok (v, st1, bs1) =>
      match v with
      | .library => read_Record_or_Primitive fuel pt st1 bs1
      | _ => .ok (v, st1, bs1)

/-- `_read_members_into` for a pre-allocated Python list `obj` (the
overwrite-info block is inactive, and a list has no `_convert_collection`
attribute, so the object always enters `_objects_by_id` at the end):
`while member_num < len(obj)` fills slots, `_ObjectNullMultiple` advances
the cursor by its count, a `_MemberReference` placeholder is stored like
any other value. -/
def read_members_into : Nat → DState → Bytes → List Val → Int → Int → (Int → Option PrimType) → Except Err (Val × DState × Bytes)
  | 0, _, _, _, _, _, _ => .error .fuelExhausted
  | fuel + 1, st, bs, obj, memberNum, objectId, mpt =>
    if memberNum < (obj.length : Int) then
      match read_member_slot fuel (mpt memberNum) st bs with
      | .error e => .error e
      | .ok (v, st1, bs1) =>
        match v with
        | .nullMultiple count => read_members_into fuel st1 bs1 obj (memberNum + count) objectId mpt
        | _ =>
          match pyListSet obj memberNum v with
          | .error e => .error e
          | .ok obj1 => read_members_into fuel st1 bs1 obj1 (memberNum + 1) objectId mpt
    else
      .ok (.list obj, { st with objects := dictInsert st.objects objectId (.list obj) }, bs)

/-- The `while not isinstance(obj, self._MessageEnd)` loop of
`read_stream`. -/
def readStreamLoop : Nat → DState → Bytes → Except Err (DState × Bytes)
  | 0, _, _ => .error .fuelExhausted
  | fuel + 1, st, bs =>
    match read_Record_or_Primitive fuel none st bs with
    | .error e => .error e
    | .ok (v, st1, bs1) =>
      match v with
      | .messageEnd => .ok (st1, bs1)
      | _ => readStreamLoop fuel st1 bs1

end

/-- `read_header`: read one record, swallowing every exception into a
`False` return, and report whether it set `_root_id`.  Modelled on a fresh
`serialization` instance, as in the `read_stream` entry point.  (On the success path
the consumed bytes and any state the record established are kept; the
`Except` embedding cannot keep partial mutations on the exception path, but
no theorem inspects the state after a swallowed exception.) -/
def read_header (bs : Bytes) : Bool × DState × Bytes :=
  match read_Record_or_Primitive (4 * bs.length + 16) none initState bs with
  | .error _ => (false, initState, bs)
  | .ok (_, st, bs1) => (st.rootId.isSome, st, bs1)

/-! ## Reference resolution (`_resolve_reference` and the two passes) -/

/-- `_resolve_reference`: look the `IdRef` up in `_objects_by_id`; on
success mark the reference resolved (the write into
`parent[index_in_parent]` has no pure counterpart and is dropped);
otherwise raise `RuntimeError` unless `ignore_unresolvable`. -/
def resolve_reference (tbl : Int → Option Val) (r : MemberRef) (ignoreUnresolvable : Bool) : Except Err MemberRef :=
  match tbl r.id with
  | some _ => .ok { r with resolved := true }
  | none => if ignoreUnresolvable then .ok r else .error .unresolvableRef

/-- The first fix-up pass of `read_stream`: every reference is offered to
`_resolve_reference` with `ignore_unresolvable=True`; failures are kept
pending. -/
def resolvePass1 (tbl : Int → Option Val) (refs : List MemberRef) : List MemberRef :=
  refs.map (fun r =>
    match resolve_reference tbl r true with
    | .ok r1 => r1
    | .error _ => r)

/-- The second fix-up pass of `read_stream`: every still-pending reference
is resolved fatally (`ignore_unresolvable=False`). -/
def resolvePass2 (tbl : Int → Option Val) : List MemberRef → Except Err (List MemberRef)
  | [] => .ok []
  | r :: rest =>
    if r.resolved then (resolvePass2 tbl rest).map (r :: ·)
    else
      match resolve_reference tbl r false with
      | .error e => .error e
      | .ok r1 => (resolvePass2 tbl rest).map (r1 :: ·)

/-! ## Collection conversion -/

/-- Python hashability of a decoded value: lists, dicts, sets and
`namedlist` instances (class instances and `_MemberReference`
placeholders) raise `TypeError` when hashed; primitives, strings, `None`
and the plain marker objects hash fine. -/
def hashable : Val → Bool
  | .list _ => false
  | .dictV _ => false
  | .setV _ => false
  | .classInst _ _ => false
  | .memberRef _ => false
  | _ => true

/-- Attribute access `collection.<name>` on a `namedlist` instance. -/
def getMember (v : Val) (name : String) : Option Val :=
  match v with
  | .classInst _ ms => (ms.find? (fun p => p.1 == name)).map (·.2)
  | _ => none

/-- The loop of `_convert_generic_hashset`: `assert item not in converted;
converted.add(item)` inside `try`; a duplicate (`AssertionError`) or an
unhashable item (`TypeError` from the membership test) returns the original
collection object. -/
def convert_generic_hashset_loop (collection : Val) (converted : List Val) : List Val → Val
  | [] => .setV converted
  | item :: rest =>
    if hashable item = false then collection
    else if converted.contains item then collection
    else convert_generic_hashset_loop collection (converted ++ [item]) rest

/-- `_convert_generic_hashset`: iterate `collection.Elements`.  A missing
attribute raises `AttributeError` (uncaught in the source); a non-list
value is out of the modelled iteration and mapped to `TypeError`. -/
def convert_generic_hashset (collection : Val) : Except Err Val :=
  match getMember collection "Elements" with
  | some (.list elems) => .ok (convert_generic_hashset_loop collection [] elems)
  | some _ => .error .typeError
  | none => .error .attributeError

/-- The loop of `_do_convertto_dict` with `_add_overwrite_info = False`
(`values_overwrite_info` is always `None`, so the overwrite branch is
inactive): `assert key not in converted; converted[key] = value` inside
`try`; a duplicate key (`AssertionError`) or an unhashable key
(`TypeError`) returns the original collection object.  The final loop
fixing `_MemberReference.parent` back-pointers is mutation-only and
dropped. -/
def do_convertto_dict_loop (collection : Val) (converted : List (Val × Val)) : List (Val × Val) → Val
  | [] => .dictV converted
  | (key, value) :: rest =>
    if hashable key = false then collection
    else if converted.any (fun p => p.1 == key) then collection
    else do_convertto_dict_loop collection (converted ++ [(key, value)]) rest

/-- `_hashtable_iter`: pair `collection.Keys` with `collection.Values`
positionally; keys beyond `len(values)` get `None`. -/
def hashtable_iter (collection : Val) : Except Err (List (Val × Val)) :=
  match getMember collection "Keys", getMember collection "Values" with
  | some (.list keys), some (.list values) =>
    .ok (keys.enum.map (fun p =>
      (p.2, if p.1 < values.length then values.getD p.1 .null else .null)))
  | _, _ => .error .attributeError

/-- `_convert_hashtable` = `_do_convertto_dict` over `_hashtable_iter`. -/
def convert_hashtable (collection : Val) : Except Err Val :=
  (hashtable_iter collection).map (do_convertto_dict_loop collection [])

/-- `_do_convertto_dict` over `_generic_dictionary_iter`, with the lazy
iterator fused into the loop: each `KeyValuePairs` item contributes
`(item.key, item.value)`; a malformed item raises `AttributeError` only
when the loop reaches it. -/
def convert_generic_dictionary_loop (collection : Val) (converted : List (Val × Val)) : List Val → Except Err Val
  | [] => .ok (.dictV converted)
  | item :: rest =>
    match getMember item "key", getMember item "value" with
    | some key, some value =>
      if hashable key = false then .ok collection
      else if converted.any (fun p => p.1 == key) then .ok collection
      else convert_generic_dictionary_loop collection (converted ++ [(key, value)]) rest
    | _, _ => .error .attributeError

/-- `_convert_generic_dictionary`: iterate `collection.KeyValuePairs`. -/
def convert_generic_dictionary (collection : Val) : Except Err Val :=
  match getMember collection "KeyValuePairs" with
  | some (.list items) => convert_generic_dictionary_loop collection [] items
  | some _ => .error .typeError
  | none => .error .attributeError

/-- Python slice `l[:n]` for a possibly negative `n`. -/
def pySliceTo (l : List Val) (n : Int) : List Val :=
  let j : Int := if n < 0 then n + l.length else n
  l.take (if j < 0 then 0 else j.toNat)

/-- `_do_convertto_list` (`_convert_arraylist` / `_convert_generic_list`):
`collection.items[:collection.size]`; the overwrite transplant and the
`_MemberReference.parent` fix-up are inactive/mutation-only and dropped. -/
def do_convertto_list (collection : Val) : Except Err Val :=
  match getMember collection "items", getMember collection "size" with
  | some (.list items), some (.intV size) => .ok (.list (pySliceTo items size))
  | _, _ => .error .attributeError

/-- ASCII lowercasing of one character (class names are ASCII). -/
def charLower (c : Char) : Char :=
  if 'A' ≤ c ∧ c ≤ 'Z' then Char.ofNat (c.toNat + 32) else c

/-- `class_name[19:].split(chr(96), 1)[0].replace('.', '_').lower()`:
everything before the first backtick, dots to underscores, lowercased. -/
def convShortName (cs : List Char) : List Char :=
  ((cs.takeWhile (· ≠ '\x60')).map (fun c => if c = '.' then '_' else c)).map charLower

/-- The converter registration of `_read_ClassInfo`: for a class whose name
starts with `System.Collections.`, the shortened lowercase converter key. -/
def collectionConverterName (className : String) : Option String :=
  if className.data.take 19 = "System.Collections.".data then
    some ⟨convShortName (className.data.drop 19)⟩
  else none

/-- `collection.__class__._convert_collection(collection)` as dispatched by
the registration above.  Classes without a matching `_convert_<name>`
method are never registered in `_collection_infos`, so they pass through
unchanged here. -/
def convertCollection (c : Val) : Except Err Val :=
  match c with
  | .classInst nm _ =>
    match collectionConverterName nm with
    | some s =>
      if s = "hashtable" then convert_hashtable c
      else if s = "generic_dictionary" then convert_generic_dictionary c
      else if s = "generic_hashset" then convert_generic_hashset c
      else if s = "arraylist" ∨ s = "generic_list" then do_convertto_list c
      else .ok c
    | none => .ok c
  | _ => .ok c

/-- The collection-conversion loop of `read_stream` (lines 539-543): each
converted collection is entered into `_objects_by_id` under its
`ObjectId`. -/
def convertAll : List (Val × Int) → List (Int × Val) → Except Err (List (Int × Val))
  | [], objs => .ok objs
  | ci :: rest, objs =>
    match convertCollection ci.1 with
    | .error e => .error e
    | .ok v => convertAll rest (dictInsert objs ci.2 v)

/-- The tail of `read_stream` (lines 533-554): first fix-up pass, collection
conversion, second fix-up pass, then the root lookup (`KeyError` when the
`RootId` was never defined). -/
def finish_stream (objects : List (Int × Val)) (refs : List MemberRef)
    (collInfos : List (Val × Int)) (rootId : Int) : Except Err Val :=
  let refs1 := resolvePass1 (lookupObj objects) refs
  match convertAll collInfos objects with
  | .error e => .error e
  | .ok objects2 =>
    match resolvePass2 (lookupObj objects2) refs1 with
    | .error e => .error e
    | .ok _ =>
      match lookupObj objects2 rootId with
      | some v => .ok v
      | none => .error .keyError

/-- The module-level `read_stream(streamfile)`: a fresh `serialization`
instance, the header handshake (`RuntimeError` when the first record is
not a valid header), the record loop until `_MessageEnd`, then
`finish_stream`. -/
def read_stream (bs : Bytes) : Except Err Val :=
  match read_header bs with
  | (false, _, _) => .error .runtimeError
  | (true, st, bs1) =>
    match readStreamLoop (4 * bs1.length + 16) st bs1 with
    | .error e => .error e
    | .ok (st1, _) =>
      match st1.rootId with
      | some r => finish_stream st1.objects st1.refs st1.collInfos r
      | none => .error .runtimeError

/-! ## The overwrite facility (`overwrite_member`)

Modelled for a `serialization` constructed with
`can_overwrite_member = True`.  The stream file becomes an explicit byte
list with a position; the struct formats are the fixed-width integer and
boolean ones (the float formats `<f`/`<d` are floating point and outside
the model).  The possibility of an I/O failure of `file.write` is made
explicit as a boolean oracle so that the `try`/`finally` position
restoration is observable. -/

/-- The fixed-width struct formats stored in `_OverwriteInfo.format`. -/
inductive StructFormat where
  | fmtBool
  | fmtByte
  | fmtSByte
  | fmtInt16
  | fmtUInt16
  | fmtInt32
  | fmtUInt32
  | fmtInt64
  | fmtUInt64
deriving DecidableEq, Repr

/-- `struct.calcsize` of a format. -/
def formatWidth : StructFormat → Nat
  | .fmtBool => 1
  | .fmtByte => 1
  | .fmtSByte => 1
  | .fmtInt16 => 2
  | .fmtUInt16 => 2
  | .fmtInt32 => 4
  | .fmtUInt32 => 4
  | .fmtInt64 => 8
  | .fmtUInt64 => 8

/-- Is the format signed? -/
def formatSigned : StructFormat → Bool
  | .fmtSByte => true
  | .fmtInt16 => true
  | .fmtInt32 => true
  | .fmtInt64 => true
  | _ => false

/-- Little-endian bytes of `n`, lowest first, `w` bytes wide. -/
def natToLEBytes : Nat → Nat → Bytes
  | 0, _ => []
  | w + 1, n => n % 256 :: natToLEBytes w (n / 256)

/-- `struct.pack(format, value)`: `none` models the `struct.error` raised
when the value is out of the format's range.  A signed value is stored as
two's complement.  (`'?'` packs the truthiness of the value and never
rejects it.) -/
def packLE (f : StructFormat) (v : Int) : Option Bytes :=
  match f with
  | .fmtBool => some [if v = 0 then 0 else 1]
  | _ =>
    let w := formatWidth f
    let inRange :=
      if formatSigned f then -(2 ^ (8 * w - 1) : Int) ≤ v ∧ v < 2 ^ (8 * w - 1)
      else 0 ≤ v ∧ v < 2 ^ (8 * w)
    if inRange then some (natToLEBytes w (v % (2 ^ (8 * w) : Int)).toNat) else none

/-- The stream file: contents plus current position (`tell()`). -/
structure PyFile where
  bytes : Bytes
  pos : Nat
deriving DecidableEq, Repr

/-- `file.seek(p)`. -/
def fileSeek (f : PyFile) (p : Nat) : PyFile := { f with pos := p }

/-- The bytes after writing `data` at offset `pos` (zero padding if the
offset is past the end, as for a sparse file). -/
def spliceWrite (bytes : Bytes) (pos : Nat) (data : Bytes) : Bytes :=
  bytes.take pos ++ List.replicate (pos - bytes.length) 0 ++ data ++ bytes.drop (pos + data.length)

/-- `file.write(data)` at the current position. -/
def fileWriteAt (f : PyFile) (data : Bytes) : PyFile :=
  { bytes := spliceWrite f.bytes f.pos data, pos := f.pos + data.length }

/-- An `_OverwriteInfo`: absolute byte offset and struct format of one
rewritable primitive. -/
structure OverwriteInfo where
  pos : Nat
  format : StructFormat
deriving DecidableEq, Repr

/-- A member locator: a list/array index or dict key (`overwrite_infos[member]`)
versus an attribute name (`getattr(overwrite_infos, member)`). -/
inductive Locator where
  | idx (i : Int)
  | attr (name : String)
deriving DecidableEq, Repr

/-- Look a locator up in the overwrite-info container for one object; a
missing locator raises the container's lookup error. -/
def lookupOverwriteInfo (infos : List (Locator × OverwriteInfo)) (member : Locator) : Option OverwriteInfo :=
  (infos.find? (fun p => p.1 == member)).map (·.2)

/-- `overwrite_member(obj, member, value)`: fetch the `_OverwriteInfo` for
the member (`self._overwrite_infos_by_pyid[id(obj)]` is modelled as the
`infos` argument; a missing member raises the lookup error), `pack` the new
value, remember `tell()`, seek to the stored offset, write, and restore the
prior position in a `finally` block even when the write raises.  The
decoded object graph `objects` is passed through untouched, as the source
never mutates it. -/
def overwrite_member (objects : List (Int × Val)) (infos : List (Locator × OverwriteInfo))
    (member : Locator) (value : Int) (f : PyFile) (writeOk : Bool) :
    Except Err Unit × PyFile × List (Int × Val) :=
  match lookupOverwriteInfo infos member with
  | none => (.error .keyError, f, objects)
  | some info =>
    match packLE info.format value with
    | none => (.error .structError, f, objects)
    | some data =>
      let oldPos := f.pos
      let f1 := fileSeek f info.pos
      if writeOk then (.ok (), fileSeek (fileWriteAt f1 data) oldPos, objects)
      else (.error .ioError, fileSeek f1 oldPos, objects)

/-! ## General lemmas about the object table and the fix-up passes -/

theorem find_map_insert_ne (k i : Int) (hne : i ≠ k) (v : Val) (l : List (Int × Val)) :
    List.find? (fun p => p.1 == i) (l.map (fun p => if p.1 == k then (k, v) else p))
      = List.find? (fun p => p.1 == i) l := by
  induction l with
  | nil => rfl
  | cons p rest ih =>
    rw [List.map_cons]
    by_cases hp : p.1 = k
    · rw [if_pos (by simpa using hp)]
      rw [List.find?_cons_of_neg _ (by simp [Ne.symm hne]),
        List.find?_cons_of_neg _ (by simp [hp, Ne.symm hne]), ih]
    · rw [if_neg (by simpa using hp)]
      by_cases hpi : p.1 = i
      · rw [List.find?_cons_of_pos _ (by simpa using hpi),
          List.find?_cons_of_pos _ (by simpa using hpi)]
      · rw [List.find?_cons_of_neg _ (by simpa using hpi),
          List.find?_cons_of_neg _ (by simpa using hpi), ih]

theorem find_map_insert_eq (k : Int) (v : Val) (l : List (Int × Val))
    (hany : l.any (fun p => p.1 == k) = true) :
    List.find? (fun p => p.1 == k) (l.map (fun p => if p.1 == k then (k, v) else p))
      = some (k, v) := by
  induction l with
  | nil => simp at hany
  | cons p rest ih =>
    rw [List.map_cons]
    by_cases hp : p.1 = k
    · rw [if_pos (by simpa using hp)]
      exact List.find?_cons_of_pos _ (by simp)
    · rw [if_neg (by simpa using hp)]
      rw [List.find?_cons_of_neg _ (by simpa using hp)]
      exact ih (by simpa [List.any_cons, hp] using hany)

/-- Python dict semantics of the object table: after `d[k] = v`, looking up
`k` yields `v` and every other key is unchanged. -/
theorem lookupObj_dictInsert (l : List (Int × Val)) (k i : Int) (v : Val) :
    lookupObj (dictInsert l k v) i = if i = k then some v else lookupObj l i := by
  unfold dictInsert lookupObj
  by_cases hany : l.any (fun p => p.1 == k) = true
  · rw [if_pos hany]
    by_cases hik : i = k
    · rw [if_pos hik, hik, find_map_insert_eq k v l hany]
      rfl
    · rw [if_neg hik, find_map_insert_ne k i hik v l]
  · rw [if_neg hany, List.find?_append]
    have hnone : List.find? (fun p => p.1 == k) l = none := by
      rw [List.find?_eq_none]
      intro q hq
      simp only [beq_iff_eq]
      intro hqk
      exact hany (List.any_eq_true.mpr ⟨q, hq, by simpa using hqk⟩)
    by_cases hik : i = k
    · rw [if_pos hik, hik, hnone]
      simp [List.find?]
    · rw [if_neg hik]
      cases hh : List.find? (fun p => p.1 == i) l with
      | some q => simp [hh]
      | none =>
        have hki : (k == i) = false := beq_eq_false_iff_ne.mpr (fun h => hik h.symm)
        simp [hh, List.find?, hki]

/-- Collection conversion only adds entries to the object table: any
`ObjectId` defined before `convertAll` is still defined afterwards. -/
theorem convertAll_lookup_isSome (colls : List (Val × Int)) :
    ∀ (l l2 : List (Int × Val)) (i : Int), convertAll colls l = .ok l2 →
      (lookupObj l i).isSome = true → (lookupObj l2 i).isSome = true := by
  induction colls with
  | nil =>
    intro l l2 i h hs
    simp only [convertAll] at h
    cases h
    exact hs
  | cons ci rest ih =>
    intro l l2 i h hs
    unfold convertAll at h
    cases hc : convertCollection ci.1 with
    | error e => rw [hc] at h; cases h
    | ok v =>
      rw [hc] at h
      refine ih _ _ _ h ?_
      rw [lookupObj_dictInsert]
      by_cases hik : i = ci.2 <;> simp [hik, hs]

/-- The first fix-up pass never raises: it marks exactly the references
whose target is already in the table as resolved and leaves the rest
pending. -/
theorem resolvePass1_eq_map (tbl : Int → Option Val) (refs : List MemberRef) :
    resolvePass1 tbl refs
      = refs.map (fun r => { id := r.id, resolved := r.resolved || (tbl r.id).isSome }) := by
  unfold resolvePass1 resolve_reference
  induction refs with
  | nil => rfl
  | cons r rest ih =>
    rw [List.map_cons, List.map_cons, ih]
    cases htbl : tbl r.id with
    | none => simp [htbl]
    | some w => simp [htbl]

/-- The second fix-up pass raises the `DanglingRef` `RuntimeError` exactly
when some still-pending reference has an undefined target. -/
theorem resolvePass2_error_iff (tbl : Int → Option Val) :
    ∀ refs : List MemberRef,
      (resolvePass2 tbl refs = .error .unresolvableRef
        ↔ ∃ r ∈ refs, r.resolved = false ∧ tbl r.id = none)
  | [] => by simp [resolvePass2]
  | r :: rest => by
    have ih := resolvePass2_error_iff tbl rest
    unfold resolvePass2
    by_cases hres : r.resolved = true
    · rw [if_pos hres]
      have hcons : (∃ x ∈ r :: rest, x.resolved = false ∧ tbl x.id = none)
          ↔ (∃ x ∈ rest, x.resolved = false ∧ tbl x.id = none) := by
        simp only [List.mem_cons]
        constructor
        · rintro ⟨x, hx | hx, hP⟩
          · rw [hx] at hP; rw [hres] at hP; cases hP.1
          · exact ⟨x, hx, hP⟩
        · rintro ⟨x, hx, hP⟩
          exact ⟨x, Or.inr hx, hP⟩
      rw [hcons, ← ih]
      cases hrec : resolvePass2 tbl rest with
      | error e => simp [Except.map]
      | ok rs => simp [Except.map]
    · rw [if_neg hres]
      unfold resolve_reference
      cases htbl : tbl r.id with
      | none =>
        simp only [htbl]
        constructor
        · intro _
          exact ⟨r, List.mem_cons_self r rest, Bool.eq_false_iff.mpr hres, htbl⟩
        · intro _
          rfl
      | some w =>
        simp only [htbl]
        have hcons : (∃ x ∈ r :: rest, x.resolved = false ∧ tbl x.id = none)
            ↔ (∃ x ∈ rest, x.resolved = false ∧ tbl x.id = none) := by
          simp only [List.mem_cons]
          constructor
          · rintro ⟨x, hx | hx, hP⟩
            · rw [hx] at hP; rw [htbl] at hP; cases hP.2
            · exact ⟨x, hx, hP⟩
          · rintro ⟨x, hx, hP⟩
            exact ⟨x, Or.inr hx, hP⟩
        rw [hcons, ← ih]
        cases hrec : resolvePass2 tbl rest with
        | error e => simp [Except.map]
        | ok rs => simp [Except.map]

/-- C1: reference resolution is two-phase.  Pass 1 (`resolvePass1`, run on
the pre-conversion object table) never raises; after collection conversion
(`convertAll`) the second pass resolves every remaining pending reference,
and the stream tail `finish_stream` fails with the `DanglingRef`
`RuntimeError` if and only if some reference's target `ObjectId` is still
undefined in the post-conversion object table. -/
theorem read_stream_dangling_ref_iff (objects objects2 : List (Int × Val))
    (refs : List MemberRef) (collInfos : List (Val × Int)) (rootId : Int)
    (hconv : convertAll collInfos objects = .ok objects2)
    (hinit : ∀ r ∈ refs, r.resolved = false) :
    (finish_stream objects refs collInfos rootId = .error .unresolvableRef
      ↔ ∃ r ∈ refs, lookupObj objects2 r.id = none) := by
  have hmono := convertAll_lookup_isSome collInfos objects objects2
  have hred : (∃ r ∈ refs.map (fun r =>
        ({ id := r.id, resolved := r.resolved || (lookupObj objects r.id).isSome } : MemberRef)),
        r.resolved = false ∧ lookupObj objects2 r.id = none)
      ↔ ∃ r ∈ refs, lookupObj objects2 r.id = none := by
    simp only [List.mem_map]
    constructor
    · rintro ⟨r1, ⟨r, hr, hr1⟩, hP⟩
      rw [← hr1] at hP
      exact ⟨r, hr, hP.2⟩
    · rintro ⟨r, hr, hnone⟩
      refine ⟨_, ⟨r, hr, rfl⟩, ?_, hnone⟩
      rw [hinit r hr, Bool.false_or]
      cases hl1 : (lookupObj objects r.id).isSome
      · rfl
      · have := hmono r.id hconv hl1
        rw [hnone] at this
        cases this
  have hchar := resolvePass2_error_iff (lookupObj objects2)
    (refs.map (fun r =>
      ({ id := r.id, resolved := r.resolved || (lookupObj objects r.id).isSome } : MemberRef)))
  rw [hred] at hchar
  unfold finish_stream
  rw [resolvePass1_eq_map]
  simp only [hconv]
  cases hp2 : resolvePass2 (lookupObj objects2)
      (refs.map (fun r =>
        ({ id := r.id, resolved := r.resolved || (lookupObj objects r.id).isSome } : MemberRef))) with
  | error e =>
    rw [hp2] at hchar
    simpa using hchar
  | ok rs =>
    rw [hp2] at hchar
    constructor
    · intro h
      cases hroot : lookupObj objects2 rootId with
      | some v => rw [hroot] at h; simp at h
      | none => rw [hroot] at h; simp at h
    · intro h
      exact absurd (hchar.mpr h) (by simp)

/-- Witness for C1 at a concrete input: one pending reference to the
undefined `ObjectId` 5 makes the stream tail fail with `DanglingRef`. -/
theorem read_stream_dangling_ref_iff_witness :
    finish_stream [] [⟨5, false⟩] [] 1 = .error .unresolvableRef :=
  (read_stream_dangling_ref_iff [] [] [⟨5, false⟩] [] 1 rfl
    (by intro r hr; rw [List.mem_singleton] at hr; rw [hr])).mpr
    ⟨⟨5, false⟩, List.mem_singleton_self _, rfl⟩

/-- C2 counterexample: a stream whose two `BinaryObjectString` records both
define `ObjectId` 1 does not fail with any duplicate-id error; `read_stream`
succeeds and returns the second string, refuting the claim that decoding
fails with `DuplicateId` whenever an `ObjectId` is defined twice. -/
theorem duplicate_id_stream_succeeds :
    read_stream ([0, 1, 0, 0, 0, 0, 0, 0, 0, 1, 0, 0, 0, 0, 0, 0, 0]
        ++ [6, 1, 0, 0, 0, 1, 97] ++ [6, 1, 0, 0, 0, 1, 98] ++ [11])
      = .ok (.str [98]) := by rfl

/-- C2 amended: defining an already-present `ObjectId` is not an error.
`_read_BinaryObjectString` always succeeds on well-formed bytes and enters
the string via plain dict assignment (`dictInsert`), which silently
replaces the value of an existing key. -/
theorem duplicate_id_overwrites (st st2 : DState) (bs bs2 : Bytes) (v : Val)
    (l : List (Int × Val)) (k : Int) (w newV : Val)
    (hparse : read_BinaryObjectString st bs = .ok (v, st2, bs2))
    (hdup : lookupObj l k = some w) :
    (∃ i cps, v = .str cps ∧ st2.objects = dictInsert st.objects i (.str cps)
      ∧ st2.refs = st.refs ∧ st2.rootId = st.rootId ∧ st2.collInfos = st.collInfos)
    ∧ lookupObj (dictInsert l k newV) k = some newV := by
  constructor
  · unfold read_BinaryObjectString at hparse
    cases h1 : read_Int32 bs with
    | error e => rw [h1] at hparse; cases hparse
    | ok p =>
      rw [h1] at hparse
      obtain ⟨objectId, bs1⟩ := p
      dsimp only at hparse
      cases h2 : read_LengthPrefixedString bs1 with
      | error e => rw [h2] at hparse; cases hparse
      | ok q =>
        rw [h2] at hparse
        obtain ⟨cps, bsr⟩ := q
        dsimp only at hparse
        cases hparse
        exact ⟨objectId, cps, rfl, rfl, rfl, rfl, rfl⟩
  · rw [lookupObj_dictInsert]
    simp

/-- Witness for C2 amended -/
theorem duplicate_id_overwrites_witness :
    lookupObj (dictInsert [(1, Val.str [99])] 1 (Val.str [98])) 1 = some (Val.str [98]) :=
  (duplicate_id_overwrites initState ⟨[(1, Val.str [97])], [], [], none⟩
    [1, 0, 0, 0, 1, 97] [] (Val.str [97]) [(1, Val.str [99])] 1 (Val.str [99]) (Val.str [98])
    rfl rfl).2

/-- C3 counterexample: a stream whose record tag byte is 20 makes
`read_stream` fail with the dispatcher's `KeyError`, refuting the claim
that tag 20 is decoded like `ArraySingleString` and decoding proceeds
normally. -/
theorem tag20_stream_fails :
    read_stream ([0, 1, 0, 0, 0, 0, 0, 0, 0, 1, 0, 0, 0, 0, 0, 0, 0] ++ [20])
      = .error .keyError := by rfl

/-- C3 amended: the record dispatcher has no entry for tag 20 (`KeyError`),
and it is tag 17 (`ArraySingleString`) that is decoded identically to tag
16 (`ArraySingleObject`), by the same reader. -/
theorem tag20_unregistered (fuel : Nat) (st : DState) (bs : Bytes) :
    readRecord (fuel + 1) st (20 :: bs) = .error .keyError
      ∧ readRecord (fuel + 1) st (17 :: bs) = readRecord (fuel + 1) st (16 :: bs) :=
  ⟨rfl, rfl⟩

/-- C4 counterexample: with two consecutive `BinaryLibrary` records before
an array/member slot, the slot reader discards only the first; the second
is stored as the slot's value (`Val.library`), which differs from the
`Val.null` obtained when the library records are removed — refuting the
claim for every `k ≥ 1`. -/
theorem binary_library_double_kept :
    read_member_slot 4 none initState
        ([12, 0, 0, 0, 0, 0] ++ [12, 0, 0, 0, 0, 0] ++ [10])
      = .ok (.library, initState, [10])
    ∧ read_member_slot 4 none initState [10] = .ok (.null, initState, [])
    ∧ Val.library ≠ Val.null :=
  ⟨rfl, rfl, fun h => Val.noConfusion h⟩

/-- C4 amended: exactly one `BinaryLibrary` record preceding a slot's value
is silently discarded: when the first read yields the library marker and
the following record is not itself a library, the slot reader returns
exactly what it returns on the stream with the library record removed
(same value, same decoder state, same remaining bytes). -/
theorem binary_library_discarded (fuel : Nat) (pt : Option PrimType) (st st1 : DState)
    (bs bs1 : Bytes)
    (h1 : read_Record_or_Primitive fuel pt st bs = .ok (.library, st1, bs1))
    (h2 : ∀ v st2 bs2, read_Record_or_Primitive fuel pt st1 bs1 = .ok (v, st2, bs2) →
      v ≠ .library) :
    read_member_slot (fuel + 1) pt st bs = read_Record_or_Primitive fuel pt st1 bs1
      ∧ read_member_slot (fuel + 1) pt st bs = read_member_slot (fuel + 1) pt st1 bs1 := by
  have hfst : read_member_slot (fuel + 1) pt st bs = read_Record_or_Primitive fuel pt st1 bs1 := by
    unfold read_member_slot
    rw [h1]
  refine ⟨hfst, ?_⟩
  rw [hfst]
  unfold read_member_slot
  cases hr : read_Record_or_Primitive fuel pt st1 bs1 with
  | error e => rfl
  | ok t =>
    obtain ⟨v, st2, bs2⟩ := t
    have hne := h2 v st2 bs2 hr
    cases v <;> first | rfl | exact absurd rfl hne

/-- Witness for C4 amended at a concrete stream: one `BinaryLibrary` record
before an `ObjectNull`. -/
theorem binary_library_discarded_witness :
    read_member_slot 4 none initState ([12, 0, 0, 0, 0, 0] ++ [10])
        = read_Record_or_Primitive 3 none initState [10]
      ∧ read_member_slot 4 none initState ([12, 0, 0, 0, 0, 0] ++ [10])
        = read_member_slot 4 none initState [10] :=
  binary_library_discarded 3 none initState initState ([12, 0, 0, 0, 0, 0] ++ [10]) [10]
    rfl
    (by
      intro v st2 bs2 h
      cases h
      exact fun hh => Val.noConfusion hh)

/-- C10: when the first record of a stream parses successfully but is not a
serialization header (no `_root_id` is set), `read_header` returns `False`
while keeping the record's bytes consumed and the state the record
established (such as an object entered into the object table); and every
exception raised while reading that first record is swallowed into a
`False` return instead of propagating. -/
theorem read_header_non_header (bs bs2 : Bytes) (v : Val) (st2 : DState)
    (h1 : read_Record_or_Primitive (4 * bs.length + 16) none initState bs = .ok (v, st2, bs2))
    (h2 : st2.rootId = none) :
    read_header bs = (false, st2, bs2)
      ∧ ∀ (cs : Bytes) (e : Err),
          read_Record_or_Primitive (4 * cs.length + 16) none initState cs = .error e →
          read_header cs = (false, initState, cs) := by
  constructor
  · unfold read_header
    rw [h1]
    dsimp only
    rw [h2]
    rfl
  · intro cs e he
    unfold read_header
    rw [he]

/-- Witness for C10 at a concrete stream: a `BinaryObjectString` as first
record yields `False`, with the string consumed and its object still in
the table. -/
theorem read_header_non_header_witness :
    read_header [6, 1, 0, 0, 0, 1, 97] = (false, ⟨[(1, Val.str [97])], [], [], none⟩, []) :=
  (read_header_non_header [6, 1, 0, 0, 0, 1, 97] [] (Val.str [97])
    ⟨[(1, Val.str [97])], [], [], none⟩ rfl rfl).1

/-- The bounded prefix loop of `_read_LengthPrefixedString` computes
exactly the closed form of the specification: terminate at the first byte
with a clear high bit (summing low-7-bit groups), `OverflowError` when all
five bytes continue, `struct.error` when the stream ends first. -/
theorem lpPrefixLoop_eq_spec (bs : Bytes) : lpPrefixLoop [0, 7, 14, 21, 28] 0 bs = lpLengthSpec bs := by
  match bs with
  | [] => rfl
  | b0 :: t1 =>
    by_cases h0 : b0.testBit 7
    case neg =>
      simp [lpPrefixLoop, lpLengthSpec, List.find?, h0, List.getD, List.range_succ]
    case pos =>
      match t1 with
      | [] => simp [lpPrefixLoop, lpLengthSpec, List.find?, h0]
      | b1 :: t2 =>
        by_cases h1 : b1.testBit 7
        case neg =>
          simp [lpPrefixLoop, lpLengthSpec, List.find?, h0, h1, List.getD, List.range_succ]
          try norm_num
          try ring
        case pos =>
          match t2 with
          | [] => simp [lpPrefixLoop, lpLengthSpec, List.find?, h0, h1]
          | b2 :: t3 =>
            by_cases h2 : b2.testBit 7
            case neg =>
              simp [lpPrefixLoop, lpLengthSpec, List.find?, h0, h1, h2, List.getD, List.range_succ]
              try norm_num
              try ring
            case pos =>
              match t3 with
              | [] => simp [lpPrefixLoop, lpLengthSpec, List.find?, h0, h1, h2]
              | b3 :: t4 =>
                by_cases h3 : b3.testBit 7
                case neg =>
                  simp [lpPrefixLoop, lpLengthSpec, List.find?, h0, h1, h2, h3, List.getD,
                    List.range_succ]
                  try norm_num
                  try ring
                case pos =>
                  match t4 with
                  | [] => simp [lpPrefixLoop, lpLengthSpec, List.find?, h0, h1, h2, h3]
                  | b4 :: t5 =>
                    by_cases h4 : b4.testBit 7
                    case neg =>
                      simp [lpPrefixLoop, lpLengthSpec, List.find?, h0, h1, h2, h3, h4,
                        List.getD, List.range_succ]
                      try norm_num
                      try ring
                    case pos =>
                      simp [lpPrefixLoop, lpLengthSpec, List.find?, h0, h1, h2, h3, h4]

/-- C5: on every input, `_read_LengthPrefixedString` equals the
specification's reader: a little-endian base-128 length prefix of at most
five bytes whose high bits signal continuation, the decoded length being
the sum of each byte's low seven bits shifted left by seven per byte
position, failing with `OverflowError` exactly when all five prefix bytes
have their high bit set, and then a body of that many bytes decoded as
UTF-8. -/
theorem read_LengthPrefixedString_matches_spec (bs : Bytes) :
    read_LengthPrefixedString bs = lpStringSpec bs := by
  unfold read_LengthPrefixedString lpStringSpec
  rw [lpPrefixLoop_eq_spec]

/-- One loop iteration of `_read_Char` at end of stream changes nothing:
`file.read(1)` returns the empty bytes, so the accumulator stays the same. -/
theorem read_CharLoop_stuck (fuel : Nat) : read_CharLoop fuel [] [0xC3] = none := by
  induction fuel with
  | zero => rfl
  | succ n ih =>
    unfold read_CharLoop
    simpa using ih

/-- C6: the claim that `_read_Char` terminates on every input stream
(including truncated ones) fails: on a stream holding only the single lead
byte `0xC3` of a two-byte UTF-8 sequence, `file.read(1)` returns empty
bytes at end of stream, the accumulator never grows past one byte, and the
`while True` loop never terminates — no iteration bound produces a result,
rather than giving up with the claimed `InvalidChar` after four bytes. -/
theorem read_Char_diverges_on_truncated (fuel : Nat) : read_Char fuel [0xC3] = none := by
  cases fuel with
  | zero => rfl
  | succ n =>
    unfold read_Char read_CharLoop
    simpa using read_CharLoop_stuck n

/-- C7: for every `DateTime` read as a U64 `a * 2^62 + t`, the top two bits
`a` select the kind (0 unspecified, 1 UTC, 2 local) and the bottom 62 bits
`t`, reinterpreted as two's complement (`signed62`), are ticks of 100 ns
from 0001-01-01; when the instant falls outside the representable range the
result silently saturates to 0001-01-01T00:00:00 (microsecond 0) while
preserving the kind. -/
theorem read_DateTime_kind_ticks (a t : Nat) (ha : a < 4) (ht : t < 2 ^ 62) :
    read_DateTime (a * 2 ^ 62 + t) =
      { kind := if a = 1 then DateTimeKind.utc
          else if a = 2 then DateTimeKind.localTime else DateTimeKind.unspecified
        microseconds :=
          if 0 ≤ roundHalfEvenDiv10 (signed62 t)
              ∧ roundHalfEvenDiv10 (signed62 t) ≤ maxDateTimeMicroseconds
          then roundHalfEvenDiv10 (signed62 t) else 0 } := by
  have h62 : (2 : Nat) ^ 62 = 4611686018427387904 := by norm_num
  have hdiv : (a * 2 ^ 62 + t) / 2 ^ 62 = a := by
    rw [h62] at ht ⊢
    omega
  have hmod : (a * 2 ^ 62 + t) % 2 ^ 62 = t := by
    rw [h62] at ht ⊢
    omega
  simp only [read_DateTime, signed62, hdiv, hmod]
  have h61 : (2 : Nat) ^ 61 = 2305843009213693952 := by norm_num
  by_cases hc : t < 2 ^ 61
  · rw [h61] at hc
    have hle : ¬(2305843009213693952 ≤ t) := by omega
    simp [hc, hle]
  · rw [h61] at hc
    have hge : 2305843009213693952 ≤ t := by omega
    have hlt : ¬(t < 2305843009213693952) := by omega
    simp [hge, hlt]

/-- Witness for C7: kind 1 with 20 ticks is UTC, two microseconds after the
epoch. -/
theorem read_DateTime_kind_ticks_witness :
    read_DateTime (1 * 2 ^ 62 + 20) = { kind := DateTimeKind.utc, microseconds := 2 } := by
  have h := read_DateTime_kind_ticks 1 20 (by norm_num) (by norm_num)
  rw [h]
  rfl

/-- If any remaining element is unhashable, or already in the accumulated
set, or duplicated later on, the hashset conversion loop gives back the
original collection object. -/
theorem convert_generic_hashset_loop_bad (collection : Val) :
    ∀ (elems acc : List Val),
      ((∃ x ∈ elems, hashable x = false) ∨ (∃ x ∈ elems, x ∈ acc) ∨ ¬ elems.Nodup) →
      convert_generic_hashset_loop collection acc elems = collection
  | [], acc, h => by
    rcases h with ⟨x, hx, _⟩ | ⟨x, hx, _⟩ | hnd
    · cases hx
    · cases hx
    · exact absurd List.nodup_nil hnd
  | item :: rest, acc, h => by
    unfold convert_generic_hashset_loop
    by_cases hh : hashable item = false
    · rw [if_pos hh]
    · rw [if_neg hh]
      by_cases hc : acc.contains item = true
      · rw [if_pos hc]
      · rw [if_neg hc]
        apply convert_generic_hashset_loop_bad
        rcases h with ⟨x, hx, hxh⟩ | ⟨x, hx, hxa⟩ | hnd
        · rcases List.mem_cons.mp hx with hx1 | hx1
          · rw [hx1] at hxh
            exact absurd hxh hh
          · exact Or.inl ⟨x, hx1, hxh⟩
        · rcases List.mem_cons.mp hx with hx1 | hx1
          · rw [hx1] at hxa
            exact absurd (List.elem_iff.mpr hxa) hc
          · exact Or.inr (Or.inl ⟨x, hx1, List.mem_append_left _ hxa⟩)
        · rw [List.nodup_cons] at hnd
          rcases not_and_or.mp hnd with hmem | hnd2
          · rw [not_not] at hmem
            exact Or.inr (Or.inl ⟨item, hmem, List.mem_append_right _ (List.mem_singleton_self _)⟩)
          · exact Or.inr (Or.inr hnd2)

/-- If any remaining key is unhashable, or collides with an accumulated
key, or is duplicated among the remaining keys, the dict conversion loop
gives back the original collection object. -/
theorem do_convertto_dict_loop_bad (collection : Val) :
    ∀ (pairs acc : List (Val × Val)),
      ((∃ p ∈ pairs, hashable p.1 = false) ∨ (∃ p ∈ pairs, ∃ q ∈ acc, q.1 = p.1)
        ∨ ¬ (pairs.map (fun p => p.1)).Nodup) →
      do_convertto_dict_loop collection acc pairs = collection
  | [], acc, h => by
    rcases h with ⟨p, hp, _⟩ | ⟨p, hp, _⟩ | hnd
    · cases hp
    · cases hp
    · exact absurd List.nodup_nil hnd
  | (key, value) :: rest, acc, h => by
    unfold do_convertto_dict_loop
    by_cases hh : hashable key = false
    · rw [if_pos hh]
    · rw [if_neg hh]
      by_cases hc : acc.any (fun p => p.1 == key) = true
      · rw [if_pos hc]
      · rw [if_neg hc]
        apply do_convertto_dict_loop_bad
        rcases h with ⟨p, hp, hph⟩ | ⟨p, hp, q, hq, hqp⟩ | hnd
        · rcases List.mem_cons.mp hp with hp1 | hp1
          · rw [hp1] at hph
            exact absurd hph hh
          · exact Or.inl ⟨p, hp1, hph⟩
        · rcases List.mem_cons.mp hp with hp1 | hp1
          · exfalso
            apply hc
            refine List.any_eq_true.mpr ⟨q, hq, ?_⟩
            rw [hp1] at hqp
            simpa using hqp
          · exact Or.inr (Or.inl ⟨p, hp1, q, List.mem_append_left _ hq, hqp⟩)
        · rw [List.map_cons, List.nodup_cons] at hnd
          rcases not_and_or.mp hnd with hmem | hnd2
          · rw [not_not, List.mem_map] at hmem
            obtain ⟨p, hp, hpk⟩ := hmem
            exact Or.inr (Or.inl ⟨p, hp, (key, value),
              List.mem_append_right _ (List.mem_singleton_self _), hpk.symm⟩)
          · exact Or.inr (Or.inr hnd2)

/-- Soft failure of `_do_convertto_dict` stated on the key projection: an
unhashable or duplicated key among the iterated pairs returns the original
collection object. -/
theorem do_convertto_dict_loop_keys_bad (collection : Val) (pairs : List (Val × Val))
    (h : (∃ k ∈ pairs.map (fun p => p.1), hashable k = false)
      ∨ ¬ (pairs.map (fun p => p.1)).Nodup) :
    do_convertto_dict_loop collection [] pairs = collection := by
  apply do_convertto_dict_loop_bad
  rcases h with ⟨k, hk, hkh⟩ | hnd
  · rw [List.mem_map] at hk
    obtain ⟨p, hp, hpk⟩ := hk
    refine Or.inl ⟨p, hp, ?_⟩
    rw [hpk]
    exact hkh
  · exact Or.inr (Or.inr hnd)

/-- Soft failure of the `Generic.Dictionary` conversion loop: when every
remaining `KeyValuePairs` item has `key` and `value` attributes, an
unhashable key, a key colliding with the accumulated dict, or a duplicated
key among the remaining items makes the loop return the original
collection object. -/
theorem convert_generic_dictionary_loop_bad (collection : Val) :
    ∀ (items : List Val) (acc : List (Val × Val)),
      (∀ it ∈ items, ((getMember it "key").isSome ∧ (getMember it "value").isSome)) →
      ((∃ it ∈ items, ∃ k, getMember it "key" = some k ∧ hashable k = false)
        ∨ (∃ it ∈ items, ∃ q ∈ acc, getMember it "key" = some q.1)
        ∨ ¬ (items.map (fun it => (getMember it "key").getD .null)).Nodup) →
      convert_generic_dictionary_loop collection acc items = .ok collection
  | [], acc, _, h => by
    rcases h with ⟨it, hit, _⟩ | ⟨it, hit, _⟩ | hnd
    · cases hit
    · cases hit
    · exact absurd List.nodup_nil hnd
  | item :: rest, acc, hwf, h => by
    obtain ⟨hks, hvs⟩ := hwf item (List.mem_cons_self item rest)
    obtain ⟨k, hk⟩ := Option.isSome_iff_exists.mp hks
    obtain ⟨v, hv⟩ := Option.isSome_iff_exists.mp hvs
    unfold convert_generic_dictionary_loop
    rw [hk, hv]
    dsimp only
    by_cases hh : hashable k = false
    · rw [if_pos hh]
    · rw [if_neg hh]
      by_cases hc : acc.any (fun p => p.1 == k) = true
      · rw [if_pos hc]
      · rw [if_neg hc]
        apply convert_generic_dictionary_loop_bad collection rest (acc ++ [(k, v)])
          (fun it hit => hwf it (List.mem_cons_of_mem _ hit))
        rcases h with ⟨it, hit, k2, hk2, hk2h⟩ | ⟨it, hit, q, hq, hqe⟩ | hnd
        · rcases List.mem_cons.mp hit with h1 | h1
          · subst h1
            rw [hk] at hk2
            cases hk2
            exact absurd hk2h hh
          · exact Or.inl ⟨it, h1, k2, hk2, hk2h⟩
        · rcases List.mem_cons.mp hit with h1 | h1
          · exfalso
            apply hc
            subst h1
            rw [hk] at hqe
            have hqk := (Option.some.inj hqe).symm
            exact List.any_eq_true.mpr ⟨q, hq, beq_iff_eq.mpr hqk⟩
          · exact Or.inr (Or.inl ⟨it, h1, q, List.mem_append_left _ hq, hqe⟩)
        · rw [List.map_cons, hk] at hnd
          simp only [Option.getD_some] at hnd
          rw [List.nodup_cons] at hnd
          rcases not_and_or.mp hnd with hmem | hnd2
          · rw [not_not, List.mem_map] at hmem
            obtain ⟨it, hit2, hitk⟩ := hmem
            obtain ⟨hks2, _⟩ := hwf it (List.mem_cons_of_mem _ hit2)
            obtain ⟨k3, hk3⟩ := Option.isSome_iff_exists.mp hks2
            rw [hk3] at hitk
            simp only [Option.getD_some] at hitk
            refine Or.inr (Or.inl ⟨it, hit2, (k, v),
              List.mem_append_right _ (List.mem_singleton_self _), ?_⟩)
            rw [hk3, hitk]
          · exact Or.inr (Or.inr hnd2)

/-- The conversion stage and stream tail of `read_stream` on a single
collection whose converter passes it through: the (opaque) object is
entered into the table under its `ObjectId` and returned as the root. -/
theorem finish_stream_single (c : Val) (cid : Int) (hc : convertCollection c = .ok c) :
    finish_stream [] [] [(c, cid)] cid = .ok c := by
  unfold finish_stream
  have hconv : convertAll [(c, cid)] [] = .ok [(cid, c)] := by
    unfold convertAll
    dsimp only
    rw [hc]
    rfl
  rw [hconv]
  dsimp only [resolvePass1, resolvePass2]
  rw [show lookupObj [(cid, c)] cid = some c from by
    unfold lookupObj
    simp [List.find?]]

/-- C8: collection conversion fails softly for every recognised converter.
When a `Generic.HashSet` contains a duplicated or unhashable element, a
`Hashtable` a duplicated or unhashable key, or a `Generic.Dictionary` a
duplicated or unhashable key among its `KeyValuePairs`, the converter
returns the original opaque class instance (with its original members such
as `Keys`/`Values`) instead of a native set or map, and in each case the
`read_stream` tail still succeeds, returning the opaque instance. -/
theorem soft_collection_conversion
    (hsName dName gdName : String)
    (hsMembers dMembers gdMembers : List (String × Val))
    (xs ks vs items : List Val) (cid : Int)
    (hx : getMember (.classInst hsName hsMembers) "Elements" = some (.list xs))
    (hxbad : (∃ x ∈ xs, hashable x = false) ∨ ¬ xs.Nodup)
    (hsname : collectionConverterName hsName = some "generic_hashset")
    (hk : getMember (.classInst dName dMembers) "Keys" = some (.list ks))
    (hv : getMember (.classInst dName dMembers) "Values" = some (.list vs))
    (hkbad : (∃ k ∈ ks, hashable k = false) ∨ ¬ ks.Nodup)
    (hdname : collectionConverterName dName = some "hashtable")
    (hkvp : getMember (.classInst gdName gdMembers) "KeyValuePairs" = some (.list items))
    (hwf : ∀ it ∈ items, ((getMember it "key").isSome ∧ (getMember it "value").isSome))
    (hgdbad : (∃ it ∈ items, ∃ k, getMember it "key" = some k ∧ hashable k = false)
      ∨ ¬ (items.map (fun it => (getMember it "key").getD .null)).Nodup)
    (hgname : collectionConverterName gdName = some "generic_dictionary") :
    convert_generic_hashset (.classInst hsName hsMembers) = .ok (.classInst hsName hsMembers)
      ∧ convert_hashtable (.classInst dName dMembers) = .ok (.classInst dName dMembers)
      ∧ convert_generic_dictionary (.classInst gdName gdMembers)
          = .ok (.classInst gdName gdMembers)
      ∧ finish_stream [] [] [(.classInst hsName hsMembers, cid)] cid
          = .ok (.classInst hsName hsMembers)
      ∧ finish_stream [] [] [(.classInst dName dMembers, cid)] cid
          = .ok (.classInst dName dMembers)
      ∧ finish_stream [] [] [(.classInst gdName gdMembers, cid)] cid
          = .ok (.classInst gdName gdMembers) := by
  have hhs : convert_generic_hashset (.classInst hsName hsMembers)
      = .ok (.classInst hsName hsMembers) := by
    unfold convert_generic_hashset
    rw [hx]
    dsimp only
    rw [convert_generic_hashset_loop_bad _ xs []
      (by rcases hxbad with hb | hb
          · exact Or.inl hb
          · exact Or.inr (Or.inr hb))]
  have hht : convert_hashtable (.classInst dName dMembers)
      = .ok (.classInst dName dMembers) := by
    unfold convert_hashtable hashtable_iter
    rw [hk, hv]
    dsimp only [Except.map]
    have hkeys : ((ks.enum.map (fun p =>
        ((p.2 : Val), if p.1 < vs.length then vs.getD p.1 .null else .null))).map
          (fun p => p.1)) = ks := by
      rw [List.map_map]
      have hfun : ((fun p => p.1) ∘ (fun p : Nat × Val =>
          ((p.2 : Val), if p.1 < vs.length then vs.getD p.1 .null else .null))) = Prod.snd := by
        funext p
        rfl
      rw [hfun, List.enum_map_snd]
    rw [do_convertto_dict_loop_keys_bad _ _ ?hbadd]
    case hbadd =>
      rw [hkeys]
      exact hkbad
  have hgd : convert_generic_dictionary (.classInst gdName gdMembers)
      = .ok (.classInst gdName gdMembers) := by
    unfold convert_generic_dictionary
    rw [hkvp]
    dsimp only
    apply convert_generic_dictionary_loop_bad _ items [] hwf
    rcases hgdbad with hb | hb
    · exact Or.inl hb
    · exact Or.inr (Or.inr hb)
  have hcchs : convertCollection (.classInst hsName hsMembers)
      = .ok (.classInst hsName hsMembers) := by
    unfold convertCollection
    dsimp only
    rw [hsname]
    dsimp only
    rw [hhs]
    rfl
  have hccht : convertCollection (.classInst dName dMembers)
      = .ok (.classInst dName dMembers) := by
    unfold convertCollection
    dsimp only
    rw [hdname]
    dsimp only
    rw [hht]
    rfl
  have hccgd : convertCollection (.classInst gdName gdMembers)
      = .ok (.classInst gdName gdMembers) := by
    unfold convertCollection
    dsimp only
    rw [hgname]
    dsimp only
    rw [hgd]
    rfl
  exact ⟨hhs, hht, hgd, finish_stream_single _ _ hcchs, finish_stream_single _ _ hccht,
    finish_stream_single _ _ hccgd⟩

/-- Witness for C8 at concrete collections: a `HashSet` with element 7
twice, a `Hashtable` with key 1 twice, and a `Generic.Dictionary` whose two
`KeyValuePairs` items share key 1 all convert to themselves, and the stream
tail returns each opaque instance as the root. -/
theorem soft_collection_conversion_witness :
    convert_generic_hashset (.classInst "System.Collections.Generic.HashSet\x601"
        [("Elements", Val.list [Val.intV 7, Val.intV 7])])
      = .ok (.classInst "System.Collections.Generic.HashSet\x601"
          [("Elements", Val.list [Val.intV 7, Val.intV 7])])
    ∧ convert_hashtable (.classInst "System.Collections.Hashtable"
        [("Keys", Val.list [Val.intV 1, Val.intV 1]),
          ("Values", Val.list [Val.null, Val.null])])
      = .ok (.classInst "System.Collections.Hashtable"
          [("Keys", Val.list [Val.intV 1, Val.intV 1]),
            ("Values", Val.list [Val.null, Val.null])])
    ∧ convert_generic_dictionary (.classInst "System.Collections.Generic.Dictionary\x602"
        [("KeyValuePairs", Val.list
          [Val.classInst "KeyValuePair" [("key", Val.intV 1), ("value", Val.null)],
            Val.classInst "KeyValuePair" [("key", Val.intV 1), ("value", Val.null)]])])
      = .ok (.classInst "System.Collections.Generic.Dictionary\x602"
          [("KeyValuePairs", Val.list
            [Val.classInst "KeyValuePair" [("key", Val.intV 1), ("value", Val.null)],
              Val.classInst "KeyValuePair" [("key", Val.intV 1), ("value", Val.null)]])])
    ∧ finish_stream [] [] [(.classInst "System.Collections.Generic.HashSet\x601"
          [("Elements", Val.list [Val.intV 7, Val.intV 7])], 3)] 3
      = .ok (.classInst "System.Collections.Generic.HashSet\x601"
          [("Elements", Val.list [Val.intV 7, Val.intV 7])])
    ∧ finish_stream [] [] [(.classInst "System.Collections.Hashtable"
          [("Keys", Val.list [Val.intV 1, Val.intV 1]),
            ("Values", Val.list [Val.null, Val.null])], 3)] 3
      = .ok (.classInst "System.Collections.Hashtable"
          [("Keys", Val.list [Val.intV 1, Val.intV 1]),
            ("Values", Val.list [Val.null, Val.null])])
    ∧ finish_stream [] [] [(.classInst "System.Collections.Generic.Dictionary\x602"
          [("KeyValuePairs", Val.list
            [Val.classInst "KeyValuePair" [("key", Val.intV 1), ("value", Val.null)],
              Val.classInst "KeyValuePair" [("key", Val.intV 1), ("value", Val.null)]])], 3)] 3
      = .ok (.classInst "System.Collections.Generic.Dictionary\x602"
          [("KeyValuePairs", Val.list
            [Val.classInst "KeyValuePair" [("key", Val.intV 1), ("value", Val.null)],
              Val.classInst "KeyValuePair" [("key", Val.intV 1), ("value", Val.null)]])]) :=
  soft_collection_conversion
    "System.Collections.Generic.HashSet\x601" "System.Collections.Hashtable"
    "System.Collections.Generic.Dictionary\x602"
    [("Elements", Val.list [Val.intV 7, Val.intV 7])]
    [("Keys", Val.list [Val.intV 1, Val.intV 1]), ("Values", Val.list [Val.null, Val.null])]
    [("KeyValuePairs", Val.list
      [Val.classInst "KeyValuePair" [("key", Val.intV 1), ("value", Val.null)],
        Val.classInst "KeyValuePair" [("key", Val.intV 1), ("value", Val.null)]])]
    [Val.intV 7, Val.intV 7] [Val.intV 1, Val.intV 1] [Val.null, Val.null]
    [Val.classInst "KeyValuePair" [("key", Val.intV 1), ("value", Val.null)],
      Val.classInst "KeyValuePair" [("key", Val.intV 1), ("value", Val.null)]] 3
    rfl (Or.inr (by simp)) rfl rfl rfl (Or.inr (by simp)) rfl rfl
    (by
      intro it hit
      rw [List.mem_cons, List.mem_cons] at hit
      rcases hit with h | h | h
      · subst h
        exact ⟨rfl, rfl⟩
      · subst h
        exact ⟨rfl, rfl⟩
      · cases h)
    (Or.inr (by
      rw [show (([Val.classInst "KeyValuePair" [("key", Val.intV 1), ("value", Val.null)],
          Val.classInst "KeyValuePair" [("key", Val.intV 1), ("value", Val.null)]].map
            (fun it => (getMember it "key").getD Val.null)))
          = [Val.intV 1, Val.intV 1] from rfl]
      simp))
    rfl

/-- C9: `overwrite_member` on a writable slot encodes the new value with
the stored fixed-width format and writes it at the stored absolute offset;
the stream position after the call equals the position before it in every
outcome (including a failing write or a failing `pack`), and the in-memory
object graph is left unchanged. -/
theorem overwrite_member_frame (objects : List (Int × Val)) (infos : List (Locator × OverwriteInfo))
    (member : Locator) (value : Int) (f : PyFile) (writeOk : Bool) (info : OverwriteInfo)
    (hinfo : lookupOverwriteInfo infos member = some info) :
    ((overwrite_member objects infos member value f writeOk).2.1.pos = f.pos)
    ∧ ((overwrite_member objects infos member value f writeOk).2.2 = objects)
    ∧ (∀ data, packLE info.format value = some data → writeOk = true →
        overwrite_member objects infos member value f writeOk
          = (.ok (), ⟨spliceWrite f.bytes info.pos data, f.pos⟩, objects))
    ∧ (writeOk = false →
        (overwrite_member objects infos member value f writeOk).2.1.bytes = f.bytes)
    ∧ (packLE info.format value = none →
        overwrite_member objects infos member value f writeOk
          = (.error .structError, f, objects)) := by
  unfold overwrite_member
  rw [hinfo]
  dsimp only
  cases hpack : packLE info.format value with
  | none =>
    dsimp only
    refine ⟨rfl, rfl, ?_, fun _ => rfl, fun _ => rfl⟩
    intro data hd _
    cases hd
  | some data =>
    dsimp only
    cases writeOk
    · rw [if_neg (fun h => Bool.noConfusion h)]
      refine ⟨rfl, rfl, ?_, fun _ => rfl, ?_⟩
      · intro data2 hd2 htrue
        cases htrue
      · intro h
        exact Option.noConfusion h
    · rw [if_pos rfl]
      refine ⟨rfl, rfl, ?_, ?_, ?_⟩
      · intro data2 hd2 _
        cases hd2
        rfl
      · intro h
        cases h
      · intro h
        exact Option.noConfusion h

/-- Witness for C9: writing Int32 value 5 at stored offset 2 of a six-byte
file leaves the position at 1 and splices the four little-endian bytes. -/
theorem overwrite_member_frame_witness :
    overwrite_member [] [(Locator.idx 0, ⟨2, StructFormat.fmtInt32⟩)] (Locator.idx 0) 5
        ⟨[9, 9, 9, 9, 9, 9], 1⟩ true
      = (.ok (), ⟨spliceWrite [9, 9, 9, 9, 9, 9] 2 [5, 0, 0, 0], 1⟩, []) :=
  (overwrite_member_frame [] [(Locator.idx 0, ⟨2, StructFormat.fmtInt32⟩)] (Locator.idx 0) 5
      ⟨[9, 9, 9, 9, 9, 9], 1⟩ true ⟨2, StructFormat.fmtInt32⟩ rfl).2.2.1 [5, 0, 0, 0] rfl rfl
